import Mathlib

/-!
# Verification of `DG.FormulaContext` (src/apps/dg/formula/formula_context.js)

Shallow embedding of the formula compilation/evaluation context of the CODAP
repository.  The JavaScript source is translated as follows:

* JS values that can flow through the context are modelled by `JSVal`.
  The host constants `Math.PI` and `Math.E` are opaque host doubles and are
  modelled by the dedicated constructors `JSVal.mathPI` / `JSVal.mathE`.
  The result of applying a resolved function implementation (a built-in from
  `_fns`, a host `Math` function, or a client-supplied function) is modelled
  symbolically by `JSVal.hostResult scope name args`: no examined claim
  depends on the numeric output of an implementation, only on which scope's
  implementation was applied, with which arguments, and on the errors and
  dependency registrations produced on the way there.
* JS objects used as name tables are modelled as finite association lists of
  own properties (`JSObj`); reading an absent property yields
  `JSVal.undef`, as `o[name]` does.  Prototype-chain inheritance is not
  modelled.
* A thrown JS exception is modelled by `Except.error` carrying a
  `FormulaError`.  `DG.VarReferenceError` and `DG.FuncReferenceError` are
  constructed with an arbitrary JS value as payload, so those constructors
  carry a `JSVal`.  A host `TypeError` (property access on `undefined`/
  `null`, calling a non-function) and a host `ReferenceError` (evaluating an
  undefined bare identifier) get their own constructors.
* `registerDependency` is a no-op hook in the base class; the embedding
  threads an explicit accumulator: each compile/evaluate entry point returns
  the list of dependency records that were passed to the hook, in call
  order.
* The compile path emits JavaScript source strings.  These are modelled by
  the deep syntax `Code`, whose constructors are in one-to-one
  correspondence with the string shapes the source concatenates;
  `Code.emit` reproduces the exact emitted text.  `createContextFunction`
  wraps an emitted expression into `function(c, e){ return expr; }`; its
  semantics `runCode` evaluates the emitted form with JS evaluation rules.
  Note that lines 200 and 506 of the source interpolate the unresolved name
  into the emitted text *unquoted*, so at run time the name is evaluated as
  a bare JavaScript identifier in the artifact's scope; `runCode` models
  that scope lookup by an explicit map `g` from identifiers to global
  values.
-/

/-- The scope in which a function name resolved: the context's built-in
`_fns` table, the host `Math` object, or the client-supplied `fns` table. -/
inductive FnScope where
  | builtin
  | math
  | client
deriving DecidableEq, Repr

/-- JavaScript values flowing through the formula context (see the header
for the modelling of `Math.PI`, `Math.E` and applied host functions). -/
inductive JSVal where
  /-- the JS value `undefined` -/
  | undef
  /-- the JS value `null` -/
  | null
  | bool (b : Bool)
  /-- JS numbers, modelled as rationals -/
  | num (q : ℚ)
  | str (s : String)
  /-- the host constant `Math.PI` -/
  | mathPI
  /-- the host constant `Math.E` -/
  | mathE
  /-- opaque result of applying the implementation a scope resolved -/
  | hostResult (scope : FnScope) (name : String) (args : List JSVal)

/-- `v` is the JS value `undefined`. -/
def JSVal.isUndef : JSVal → Bool
  | .undef => true
  | _ => false

/-- A JS object used as a name table: its own properties, in order. -/
def JSObj : Type := List (String × JSVal)

/-- Property read `o[name]`: the first own property named `name`, or
`undefined` when there is none. -/
def JSObj.read : JSObj → String → JSVal
  | [], _ => .undef
  | (k, v) :: rest, n => if k = n then v else JSObj.read rest n

/-- The value of the `iEvalContext` argument of `evaluateVariable`, and the
`e` parameter of an invoked compiled artifact: `undefined`, `null`, or an
object.  (These are the argument shapes the surrounding code can pass; a
primitive would behave like `null` for the purposes of the source's
`iEvalContext && iEvalContext[iName]` guard.) -/
inductive EvalArg where
  | undef
  | null
  | obj (o : JSObj)

/-- The JS expression `iEvalContext && iEvalContext[iName]`: a falsy
context (`undefined`/`null`) short-circuits to itself, an object (always
truthy) is indexed. -/
def EvalArg.andRead : EvalArg → String → JSVal
  | .undef, _ => .undef
  | .null, _ => .null
  | .obj o, n => o.read n

/-- Dependency-node types.  `undefinedType` is the source constant
`DG.DEP_TYPE_UNDEFINED` (the spec's `Unresolved`), `special` is
`DG.DEP_TYPE_SPECIAL`. -/
inductive DepType where
  | undefinedType
  | special
deriving DecidableEq, Repr

/-- One endpoint of a dependency edge (`{type, id, name}`). -/
structure DependencySpec where
  type : DepType
  id : String
  name : String
deriving DecidableEq, Repr

/-- A dependency record as passed to the `registerDependency` hook.
`aggFnIndices` is `none` when the caller omitted the field (as
`compileVariable` does) and `some` when it passed its `iAggFnIndices`
argument through (as `compileFunction` does). -/
structure Dependency where
  independentSpec : DependencySpec
  aggFnIndices : Option (List ℕ)
deriving DecidableEq, Repr

/-- Function metadata as stored in `_fnsProps` / `_MathFnProps` / client
`fnsProps` tables. -/
structure FnProps where
  minArgs : ℕ
  maxArgs : ℕ
  isRandom : Bool
  category : String
deriving DecidableEq, Repr

/-- Errors: the three `DG` error classes thrown by the source, plus the two
host JavaScript errors an emitted artifact can raise. -/
inductive FormulaError where
  /-- `new DG.VarReferenceError(payload)` -/
  | varReferenceError (payload : JSVal)
  /-- `new DG.FuncReferenceError(payload)` -/
  | funcReferenceError (payload : JSVal)
  /-- `new DG.FuncArgsError(iName, fArgs)` -/
  | funcArgsError (name : String) (fArgs : FnProps)
  /-- host `TypeError` (member access on `undefined`/`null`, call of a
  non-function) -/
  | typeError
  /-- host `ReferenceError`: the bare identifier `name` is not defined in
  the scope of the generated function -/
  | jsReferenceError (name : String)

/-- The JavaScript expression strings emitted by the compile path, as a deep
syntax.  `Code.emit` below reproduces the exact concatenated text of each
constructor. -/
inductive Code where
  /-- `"Math.PI"` -/
  | mathPI
  /-- `"Math.E"` -/
  | mathE
  /-- `"e." + iName` -/
  | eRead (name : String)
  /-- `"c.vars." + iName` -/
  | cVarsRead (name : String)
  /-- `"(function(){throw new DG.VarReferenceError(" + iName + ");})()"`
  — note the unquoted interpolation of `iName` -/
  | throwVarRef (name : String)
  /-- `"(function(){throw new DG.FuncReferenceError(" + iName + ");})()"`
  — note the unquoted interpolation of `iName` -/
  | throwFuncRef (name : String)
  /-- `"c._fns." + iName + "(" + iArgs + ")"` -/
  | fnsCall (name : String) (args : List Code)
  /-- `"Math." + iName + "(" + iArgs + ")"` -/
  | mathCall (name : String) (args : List Code)
  /-- `"c.fns." + iName + "(" + iArgs + ")"` -/
  | clientCall (name : String) (args : List Code)

mutual

/-- The exact JavaScript text the source builds for each `Code` form (a JS
array of argument strings stringifies with `,` separators). -/
def Code.emit : Code → String
  | .mathPI => "Math.PI"
  | .mathE => "Math.E"
  | .eRead n => "e." ++ n
  | .cVarsRead n => "c.vars." ++ n
  | .throwVarRef n =>
      "(function()\x7bthrow new DG.VarReferenceError(" ++ n ++ ");\x7d)()"
  | .throwFuncRef n =>
      "(function()\x7bthrow new DG.FuncReferenceError(" ++ n ++ ");\x7d)()"
  | .fnsCall n args => "c._fns." ++ n ++ "(" ++ Code.emitList args ++ ")"
  | .mathCall n args => "Math." ++ n ++ "(" ++ Code.emitList args ++ ")"
  | .clientCall n args => "c.fns." ++ n ++ "(" ++ Code.emitList args ++ ")"

/-- Argument strings joined by `,` (JS `Array.prototype.toString`). -/
def Code.emitList : List Code → String
  | [] => ""
  | [c] => c.emit
  | c :: cs => c.emit ++ "," ++ Code.emitList cs

end

/-- The state of a `DG.FormulaContext` instance that the examined entry
points read: the `eVars`, `vars`, `fns` and `fnsProps` properties (each
possibly absent, i.e. `undefined`, on the base class).  For the client
function table only the set of names bound to functions matters, so `fns`
is modelled by its key list. -/
structure FormulaContext where
  eVars : Option JSObj
  vars : Option JSObj
  fns : Option (List String)
  fnsProps : Option (List (String × FnProps))

/-- Key lookup in a props table (`iArgSpecs[iName]`, own properties). -/
def propsRead : List (String × FnProps) → String → Option FnProps
  | [], _ => none
  | (k, v) :: rest, n => if k = n then some v else propsRead rest n

/-- `compileVariable` (source lines 179–201): constants first, then the
`eVars` table, then the `vars` table; an unresolved name registers one
dependency with independent spec `{DG.DEP_TYPE_UNDEFINED, iName, iName}`
(and no `aggFnIndices` field) and compiles to the deferred-throw artifact
text.  The function itself never throws: it totally returns the emitted
code together with the dependencies registered. -/
def compileVariable (ctx : FormulaContext) (iName : String) :
    Code × List Dependency :=
  if iName = "pi" ∨ iName = "π" then (.mathPI, [])
  else if iName = "e" then (.mathE, [])
  else
    let resolved : Option Code :=
      match ctx.eVars with
      | some eVars => if (eVars.read iName).isUndef then
          match ctx.vars with
          | some vars =>
              if (vars.read iName).isUndef then none else some (.cVarsRead iName)
          | none => none
        else some (.eRead iName)
      | none =>
          match ctx.vars with
          | some vars =>
              if (vars.read iName).isUndef then none else some (.cVarsRead iName)
          | none => none
    match resolved with
    | some code => (code, [])
    | none =>
        (.throwVarRef iName,
         [⟨⟨.undefinedType, iName, iName⟩, none⟩])

/-- `evaluateVariable` (source lines 211–227): constants first; then
`eValue = iEvalContext && iEvalContext[iName]` is returned whenever it is
not strictly equal to `undefined` (so a `null` eval context is returned
as-is); then the `vars` table; otherwise
`throw new DG.VarReferenceError(iName)` with the name string as payload. -/
def evaluateVariable (ctx : FormulaContext) (iName : String)
    (iEvalContext : EvalArg) : Except FormulaError JSVal :=
  if iName = "pi" ∨ iName = "π" then .ok .mathPI
  else if iName = "e" then .ok .mathE
  else
    let eValue := iEvalContext.andRead iName
    if eValue.isUndef then
      match ctx.vars with
      | some vars =>
          if (vars.read iName).isUndef then
            .error (.varReferenceError (.str iName))
          else .ok (vars.read iName)
      | none => .error (.varReferenceError (.str iName))
    else .ok eValue

/-- The keys of the built-in `_fns` implementation table (source lines
239–406); `typeof _fns[iName] === 'function'` holds exactly for these
thirteen own properties. -/
def fnsKeys : List String :=
  ["boolean", "frac", "isFinite", "ln", "log", "number", "random", "round",
   "string", "trunc", "greatCircleDistance", "secondsToDate", "month"]

/-- The built-in metadata table `_fnsProps` (source lines 412–425).  Note
that `isFinite` has an implementation in `_fns` but no entry here. -/
def fnsProps : List (String × FnProps) :=
  [("boolean", ⟨1, 1, false, "DG.Formula.FuncCategoryConversion"⟩),
   ("frac", ⟨1, 1, false, "DG.Formula.FuncCategoryArithmetic"⟩),
   ("ln", ⟨1, 1, false, "DG.Formula.FuncCategoryArithmetic"⟩),
   ("log", ⟨1, 1, false, "DG.Formula.FuncCategoryArithmetic"⟩),
   ("number", ⟨1, 1, false, "DG.Formula.FuncCategoryConversion"⟩),
   ("random", ⟨0, 2, true, "DG.Formula.FuncCategoryRandom"⟩),
   ("round", ⟨1, 2, false, "DG.Formula.FuncCategoryArithmetic"⟩),
   ("string", ⟨1, 1, false, "DG.Formula.FuncCategoryConversion"⟩),
   ("trunc", ⟨1, 1, false, "DG.Formula.FuncCategoryArithmetic"⟩),
   ("greatCircleDistance", ⟨4, 4, false, "DG.Formula.FuncCategoryOther"⟩),
   ("secondsToDate", ⟨1, 1, false, "DG.Formula.FuncCategoryDateTime"⟩),
   ("month", ⟨1, 1, false, "DG.Formula.FuncCategoryDateTime"⟩)]

/-- The function-valued own properties of the host `Math` object
(ECMAScript 5 set; later editions add more, none of which is referenced by
an examined claim): `typeof Math[iName] === 'function'` holds for these. -/
def mathKeys : List String :=
  ["abs", "acos", "asin", "atan", "atan2", "ceil", "cos", "exp", "floor",
   "log", "max", "min", "pow", "random", "round", "sin", "sqrt", "tan"]

/-- The `Math` metadata table `_MathFnProps` (source lines 431–450); the
`log`, `max`, `min`, `random`, `round` entries are commented out in the
source (replaced by DG/aggregate versions), so those names resolve via
`Math` with no metadata entry here. -/
def mathFnProps : List (String × FnProps) :=
  [("abs", ⟨1, 1, false, "DG.Formula.FuncCategoryArithmetic"⟩),
   ("acos", ⟨1, 1, false, "DG.Formula.FuncCategoryTrigonometric"⟩),
   ("asin", ⟨1, 1, false, "DG.Formula.FuncCategoryTrigonometric"⟩),
   ("atan", ⟨1, 1, false, "DG.Formula.FuncCategoryTrigonometric"⟩),
   ("atan2", ⟨2, 2, false, "DG.Formula.FuncCategoryTrigonometric"⟩),
   ("ceil", ⟨1, 1, false, "DG.Formula.FuncCategoryArithmetic"⟩),
   ("cos", ⟨1, 1, false, "DG.Formula.FuncCategoryTrigonometric"⟩),
   ("exp", ⟨1, 1, false, "DG.Formula.FuncCategoryArithmetic"⟩),
   ("floor", ⟨1, 1, false, "DG.Formula.FuncCategoryArithmetic"⟩),
   ("pow", ⟨2, 2, false, "DG.Formula.FuncCategoryArithmetic"⟩),
   ("sin", ⟨1, 1, false, "DG.Formula.FuncCategoryTrigonometric"⟩),
   ("sqrt", ⟨1, 1, false, "DG.Formula.FuncCategoryArithmetic"⟩),
   ("tan", ⟨1, 1, false, "DG.Formula.FuncCategoryTrigonometric"⟩)]

/-- `checkArgs` (source lines 41–45): look the function up in the given
specs table; when the table is absent or has no entry, the check is
skipped; otherwise `iArgs.length < fArgs.minArgs` throws
`DG.FuncArgsError(iName, fArgs)`.  Only the length of the argument list is
read, so the element type is arbitrary (compile passes code strings,
evaluate passes values). -/
def checkArgs {α : Type} (iName : String) (iArgs : List α)
    (iArgSpecs : Option (List (String × FnProps))) : Except FormulaError Unit :=
  match iArgSpecs with
  | none => .ok ()
  | some specs =>
    match propsRead specs iName with
    | none => .ok ()
    | some fArgs =>
        if iArgs.length < fArgs.minArgs then
          .error (.funcArgsError iName fArgs)
        else .ok ()

/-- The single dependency record registered for a call to a function whose
resolved props flag `isRandom` (source lines 476–482). -/
def randomDependency (iAggFnIndices : Option (List ℕ)) : Dependency :=
  ⟨⟨.special, "random", "random"⟩, iAggFnIndices⟩

/-- The nested helper `checkArgsAndRandom` of `compileFunction` (source
lines 469–484): validate the argument count against the given props map,
then, when the entry flags `isRandom`, register the
`{DG.DEP_TYPE_SPECIAL, "random", "random"}` dependency carrying the
`iAggFnIndices` snapshot.  Returns the dependencies registered. -/
def checkArgsAndRandom {α : Type} (iName : String) (iArgs : List α)
    (iFnPropsMap : Option (List (String × FnProps)))
    (iAggFnIndices : Option (List ℕ)) : Except FormulaError (List Dependency) :=
  let fnProps := match iFnPropsMap with
    | some m => propsRead m iName
    | none => none
  let isRandom := match fnProps with
    | some p => p.isRandom
    | none => false
  match checkArgs iName iArgs iFnPropsMap with
  | .error err => .error err
  | .ok _ => .ok (if isRandom then [randomDependency iAggFnIndices] else [])

/-- `compileFunction` (source lines 467–507): try the built-in `_fns`
table, then the host `Math` object, then the client `fns` table, first
match winning; the matching branch runs `checkArgsAndRandom` with that
scope's props map and emits the corresponding call text.  A name matching
no scope emits the deferred-throw artifact (registering nothing).  A
`FuncArgsError` propagates out of the compilation (`Except.error`). -/
def compileFunction (ctx : FormulaContext) (iName : String)
    (iArgs : List Code) (iAggFnIndices : Option (List ℕ)) :
    Except FormulaError (Code × List Dependency) :=
  if fnsKeys.contains iName then
    match checkArgsAndRandom iName iArgs (some fnsProps) iAggFnIndices with
    | .error err => .error err
    | .ok deps => .ok (.fnsCall iName iArgs, deps)
  else if mathKeys.contains iName then
    match checkArgsAndRandom iName iArgs (some mathFnProps) iAggFnIndices with
    | .error err => .error err
    | .ok deps => .ok (.mathCall iName iArgs, deps)
  else
    match ctx.fns with
    | some fnames =>
        if fnames.contains iName then
          match checkArgsAndRandom iName iArgs ctx.fnsProps iAggFnIndices with
          | .error err => .error err
          | .ok deps => .ok (.clientCall iName iArgs, deps)
        else .ok (.throwFuncRef iName, [])
    | none => .ok (.throwFuncRef iName, [])

/-- `evaluateFunction` (source lines 520–543): same resolution order, but
each branch runs plain `checkArgs` (no `isRandom` handling and no
`registerDependency` call occurs anywhere on this path) and applies the
resolved implementation; an unresolved name throws
`DG.FuncReferenceError(iName)` immediately.  The second component is the
list of dependencies registered during the call — always `[]`, since the
source's `evaluateFunction` contains no `registerDependency` call. -/
def evaluateFunction (ctx : FormulaContext) (iName : String)
    (iArgs : List JSVal) : Except FormulaError (JSVal × List Dependency) :=
  if fnsKeys.contains iName then
    match checkArgs iName iArgs (some fnsProps) with
    | .error err => .error err
    | .ok _ => .ok (.hostResult .builtin iName iArgs, [])
  else if mathKeys.contains iName then
    match checkArgs iName iArgs (some mathFnProps) with
    | .error err => .error err
    | .ok _ => .ok (.hostResult .math iName iArgs, [])
  else
    match ctx.fns with
    | some fnames =>
        if fnames.contains iName then
          match checkArgs iName iArgs ctx.fnsProps with
          | .error err => .error err
          | .ok _ => .ok (.hostResult .client iName iArgs, [])
        else .error (.funcReferenceError (.str iName))
    | none => .error (.funcReferenceError (.str iName))

mutual

/-- JavaScript evaluation of an emitted expression inside the artifact
`function(c, e){ return expr; }` built by `createContextFunction`:
`c` is the formula context, `e` the evaluation context, and `g` the
lookup for any other bare identifier reaching the artifact's scope (the
host global object).  Member access on `undefined` raises `TypeError`;
an identifier defined nowhere raises the host `ReferenceError`; call
arguments evaluate left to right before the call is made. -/
def runCode (g : String → Option JSVal) (c : FormulaContext) (e : EvalArg) :
    Code → Except FormulaError JSVal
  | .mathPI => .ok .mathPI
  | .mathE => .ok .mathE
  | .eRead n =>
    match e with
    | .obj o => .ok (o.read n)
    | _ => .error .typeError
  | .cVarsRead n =>
    match c.vars with
    | some vs => .ok (vs.read n)
    | none => .error .typeError
  | .throwVarRef n =>
    match g n with
    | some v => .error (.varReferenceError v)
    | none => .error (.jsReferenceError n)
  | .throwFuncRef n =>
    match g n with
    | some v => .error (.funcReferenceError v)
    | none => .error (.jsReferenceError n)
  | .fnsCall n args =>
    match runCodeList g c e args with
    | .error err => .error err
    | .ok vs =>
        if fnsKeys.contains n then .ok (.hostResult .builtin n vs)
        else .error .typeError
  | .mathCall n args =>
    match runCodeList g c e args with
    | .error err => .error err
    | .ok vs =>
        if mathKeys.contains n then .ok (.hostResult .math n vs)
        else .error .typeError
  | .clientCall n args =>
    match c.fns with
    | none => .error .typeError
    | some fnames =>
      match runCodeList g c e args with
      | .error err => .error err
      | .ok vs =>
          if fnames.contains n then .ok (.hostResult .client n vs)
          else .error .typeError

/-- Left-to-right evaluation of a call's argument expressions; the first
thrown error aborts the argument list. -/
def runCodeList (g : String → Option JSVal) (c : FormulaContext)
    (e : EvalArg) : List Code → Except FormulaError (List JSVal)
  | [] => .ok []
  | a :: rest =>
    match runCode g c e a with
    | .error err => .error err
    | .ok v =>
      match runCodeList g c e rest with
      | .error err => .error err
      | .ok vs => .ok (v :: vs)

end

/-- `DG.FormulaContext.createContextFunction` (source lines 556–559) wraps
an emitted expression into `new Function('c', 'e', 'return ' + expr)`.
Invoking the artifact with `(c, e)` evaluates the expression under those
bindings; `g` supplies the surrounding global scope. -/
def createContextFunction (iExpression : Code) (g : String → Option JSVal)
    (c : FormulaContext) (e : EvalArg) : Except FormulaError JSVal :=
  runCode g c e iExpression

/-- An entry of the function context stack; the source only ever reads its
`name` property. -/
structure FnCtx where
  name : String
deriving DecidableEq, Repr

/-- `beginFunctionContext` (source lines 68–70) pushes onto the JS array
`_functionContextStack`.  The array's end is the top of the stack; the
embedding keeps the top at the head of the list, so a push is `cons`. -/
def beginFunctionContext (stack : List FnCtx) (iFunctionContext : FnCtx) :
    List FnCtx :=
  iFunctionContext :: stack

/-- `topName`: `stackSize ? stack[stackSize - 1].name : ''` (source line
79). -/
def topName : List FnCtx → String
  | [] => ""
  | c :: _ => c.name

/-- Outcome of one `endFunctionContext` call. -/
inductive EndResult where
  /-- the matching-name branch ran `--length` on a non-empty array -/
  | popped (stack : List FnCtx)
  /-- the names differed: `DG.logError(...)` ran, stack unchanged -/
  | logged (stack : List FnCtx)
  /-- the matching-name branch ran `--length` on the empty array, setting
  `length` to `-1`, which raises `RangeError: invalid array length` -/
  | rangeError
deriving DecidableEq, Repr

/-- `endFunctionContext` (source lines 76–84): `endName` is
`iFunctionContext && iFunctionContext.name` (`none` models an absent
context or an `undefined` name, which can never be strictly equal to the
string `topName`); on `endName === topName` the source decrements the
array's `length`, which pops the top entry — or raises `RangeError` when
the stack is already empty; otherwise it logs and leaves the stack
unchanged. -/
def endFunctionContext (stack : List FnCtx)
    (iFunctionContext : Option FnCtx) : EndResult :=
  let endName : Option String := iFunctionContext.map FnCtx.name
  if endName = some (topName stack) then
    match stack with
    | [] => .rangeError
    | _ :: rest => .popped rest
  else .logged stack

/-- Pushing a whole list of contexts, first element first (left fold over
`beginFunctionContext`, starting from the given stack). -/
def beginAll (stack : List FnCtx) (cs : List FnCtx) : List FnCtx :=
  cs.foldl beginFunctionContext stack

/-- Running a sequence of `endFunctionContext` calls, counting the logged
contract violations; `none` when a call raised `RangeError` (which would
propagate to the caller). -/
def runEnds : List FnCtx → List FnCtx → ℕ → Option (List FnCtx × ℕ)
  | stack, [], logCount => some (stack, logCount)
  | stack, d :: ds, logCount =>
    match endFunctionContext stack (some d) with
    | .popped s => runEnds s ds logCount
    | .logged s => runEnds s ds (logCount + 1)
    | .rangeError => none

/-- A base formula context with none of the optional tables set (every
`this.get(...)` of the examined properties yields `undefined`). -/
def ctxEmpty : FormulaContext := ⟨none, none, none, none⟩

/-- A context with client-supplied function tables: `clientRand` is a
client function flagged `isRandom` with `minArgs 1`; `log`, `round` and
`random` shadow names that also exist in earlier scopes; `userFn` is a
client function with no `fnsProps` entry. -/
def ctxClient : FormulaContext :=
  ⟨none, none,
   some ["clientRand", "log", "round", "random", "userFn"],
   some [("clientRand", ⟨1, 2, true, "client"⟩),
         ("log", ⟨1, 1, false, "client"⟩),
         ("round", ⟨1, 1, false, "client"⟩),
         ("random", ⟨0, 0, true, "client"⟩)]⟩

/-- The value the source's `vars && vars[iName]` sequence reads from the
instance-variable table (`undefined` when the table is absent). -/
def varsRead (ctx : FormulaContext) (iName : String) : JSVal :=
  match ctx.vars with
  | some vars => vars.read iName
  | none => .undef

theorem isUndef_true_iff (v : JSVal) : v.isUndef = true ↔ v = .undef := by
  cases v <;> simp [JSVal.isUndef]

/-- C1: for a name that is no constant and is defined in neither variable
table, `compileVariable` returns without throwing and registers exactly one
dependency with independent spec `{DG.DEP_TYPE_UNDEFINED, name, name}` — but
the emitted artifact text interpolates the name UNQUOTED
(`throw new DG.VarReferenceError(unknownVar)`), so invoking the artifact
evaluates `unknownVar` as a bare JavaScript identifier and raises the host
`ReferenceError`, not the claimed `DG.VarReferenceError` carrying the name
string.  Evaluated here at the failing input `"unknownVar"` on the empty
base context with no global of that name. -/
theorem c1_unresolvedVariableArtifactRaisesHostReferenceError :
    compileVariable ctxEmpty "unknownVar" =
      (.throwVarRef "unknownVar",
       [⟨⟨.undefinedType, "unknownVar", "unknownVar"⟩, none⟩])
    ∧ (Code.throwVarRef "unknownVar").emit =
      "(function()\x7bthrow new DG.VarReferenceError(unknownVar);\x7d)()"
    ∧ createContextFunction (.throwVarRef "unknownVar") (fun _ => none)
        ctxEmpty (.obj []) = .error (.jsReferenceError "unknownVar") :=
  ⟨rfl, rfl, rfl⟩

/-- C2 counterexample: on the direct-evaluate path a call to `random` (the
function flagged `isRandom`) registers NO dependency — the source's
`evaluateFunction` contains no `registerDependency` call — refuting the
claim that exactly one `{Special, "random", "random"}` dependency is
registered on the compile path and the direct-evaluate path alike. -/
theorem c2_evaluateRandomRegistersNoDependency :
    evaluateFunction ctxEmpty "random" [] =
      .ok (.hostResult .builtin "random" [], [])
    ∧ evaluateFunction ctxEmpty "random" [.num 5, .num 10] =
      .ok (.hostResult .builtin "random" [.num 5, .num 10], []) :=
  ⟨rfl, rfl⟩

/-- C2 amended: on the COMPILE path, a call to a function whose resolved
scope's props entry flags `isRandom` registers exactly one dependency with
independent spec `{DG.DEP_TYPE_SPECIAL, "random", "random"}` carrying the
aggregate-index snapshot, regardless of the scope the name resolved in
(built-in `random`, or any client function flagged `isRandom`); the
direct-evaluate path registers no dependency at all. -/
theorem c2_randomDependencyRegisteredOnCompilePathOnly :
    (∀ (ctx : FormulaContext) (cargs : List Code) (agg : Option (List ℕ)),
      compileFunction ctx "random" cargs agg =
        .ok (.fnsCall "random" cargs, [randomDependency agg]))
    ∧ (∀ (ctx : FormulaContext) (n : String) (p : FnProps)
        (fnames : List String) (cprops : List (String × FnProps))
        (cargs : List Code) (agg : Option (List ℕ)),
      fnsKeys.contains n = false → mathKeys.contains n = false →
      ctx.fns = some fnames → fnames.contains n = true →
      ctx.fnsProps = some cprops → propsRead cprops n = some p →
      p.isRandom = true → p.minArgs ≤ cargs.length →
      compileFunction ctx n cargs agg =
        .ok (.clientCall n cargs, [randomDependency agg]))
    ∧ (∀ (ctx : FormulaContext) (vargs : List JSVal),
      evaluateFunction ctx "random" vargs =
        .ok (.hostResult .builtin "random" vargs, [])) := by
  refine ⟨fun ctx cargs agg => rfl, ?_, fun ctx vargs => rfl⟩
  intro ctx n p fnames cprops cargs agg h1 h2 h3 h4 h5 h6 h7 h8
  simp only [compileFunction, h1, h2, h3, h4, h5, Bool.false_eq_true, if_false,
    if_true, checkArgsAndRandom, checkArgs, h6, if_neg (Nat.not_lt.mpr h8), h7]

/-- C2 witness: the amended theorem at concrete inputs — built-in `random`
with an aggregate snapshot, a client `isRandom` function, and the
dependency-free evaluate path. -/
theorem c2_randomDependencyWitness :
    compileFunction ctxEmpty "random" [] (some [0, 1]) =
      .ok (.fnsCall "random" [], [randomDependency (some [0, 1])])
    ∧ compileFunction ctxClient "clientRand" [.mathPI] (some [2]) =
      .ok (.clientCall "clientRand" [.mathPI], [randomDependency (some [2])])
    ∧ evaluateFunction ctxEmpty "random" [.num 5] =
      .ok (.hostResult .builtin "random" [.num 5], []) :=
  ⟨c2_randomDependencyRegisteredOnCompilePathOnly.1 ctxEmpty [] (some [0, 1]),
   c2_randomDependencyRegisteredOnCompilePathOnly.2.1 ctxClient "clientRand"
     ⟨1, 2, true, "client"⟩ ["clientRand", "log", "round", "random", "userFn"]
     [("clientRand", ⟨1, 2, true, "client"⟩), ("log", ⟨1, 1, false, "client"⟩),
      ("round", ⟨1, 1, false, "client"⟩), ("random", ⟨0, 0, true, "client"⟩)]
     [.mathPI] (some [2]) rfl rfl rfl rfl rfl rfl rfl (by decide),
   c2_randomDependencyRegisteredOnCompilePathOnly.2.2 ctxEmpty [.num 5]⟩

/-- C3 counterexample: with the `null` eval context — a value under which
no name is defined — `evaluateVariable` does NOT raise: the source's
`eValue = iEvalContext && iEvalContext[iName]` short-circuits to `null`,
and `null !== undefined`, so `null` is returned as the variable's value. -/
theorem c3_nullEvalContextReturnsNullInsteadOfThrowing :
    evaluateVariable ctxEmpty "unknownVar" .null = .ok .null := rfl

/-- C3 amended: for every name that is no constant, every eval-context
argument that is `undefined` or an object under which the name is
undefined, and every context whose instance-variable table does not define
the name, `evaluateVariable` raises `DG.VarReferenceError` carrying the
name immediately. -/
theorem c3_unresolvedEvaluateVariableThrowsImmediately :
    ∀ (ctx : FormulaContext) (n : String) (ec : EvalArg),
    n ≠ "pi" → n ≠ "π" → n ≠ "e" →
    ec.andRead n = .undef →
    (varsRead ctx n).isUndef = true →
    evaluateVariable ctx n ec = .error (.varReferenceError (.str n)) := by
  intro ctx n ec h1 h2 h3 h4 h5
  simp only [evaluateVariable, h1, h2, h3, or_self, if_false, h4,
    JSVal.isUndef, if_true]
  cases hv : ctx.vars with
  | none => rfl
  | some vars =>
      have hu : vars.read n = .undef := by
        rw [← isUndef_true_iff]
        simpa [varsRead, hv] using h5
      simp [hu, JSVal.isUndef]

/-- C3 witness: the amended theorem at concrete inputs — the name
`unknownVar` on the empty base context, with the eval context absent and
with an object eval context that binds only another name. -/
theorem c3_unresolvedEvaluateVariableWitness :
    evaluateVariable ctxEmpty "unknownVar" .undef =
      .error (.varReferenceError (.str "unknownVar"))
    ∧ evaluateVariable ctxEmpty "unknownVar" (.obj [("other", .num 1)]) =
      .error (.varReferenceError (.str "unknownVar")) :=
  ⟨c3_unresolvedEvaluateVariableThrowsImmediately ctxEmpty "unknownVar" .undef
     (by decide) (by decide) (by decide) rfl rfl,
   c3_unresolvedEvaluateVariableThrowsImmediately ctxEmpty "unknownVar"
     (.obj [("other", .num 1)]) (by decide) (by decide) (by decide) rfl rfl⟩

/-- C4: when a function name resolves in a scope whose metadata table has
an entry with `minArgs m`, calling `compileFunction` or `evaluateFunction`
with fewer than `m` arguments raises `DG.FuncArgsError` carrying the name
and the full bounds entry, on both paths, with no call code emitted and no
implementation applied (the error is the entire result).  One conjunct per
scope: built-in, host-math, client. -/
theorem c4_arityErrorRaisedBelowMinArgsOnBothPaths :
    (∀ (ctx : FormulaContext) (n : String) (p : FnProps) (cargs : List Code)
       (vargs : List JSVal) (agg : Option (List ℕ)),
      fnsKeys.contains n = true → propsRead fnsProps n = some p →
      cargs.length < p.minArgs → vargs.length < p.minArgs →
      compileFunction ctx n cargs agg = .error (.funcArgsError n p)
        ∧ evaluateFunction ctx n vargs = .error (.funcArgsError n p))
    ∧ (∀ (ctx : FormulaContext) (n : String) (p : FnProps) (cargs : List Code)
       (vargs : List JSVal) (agg : Option (List ℕ)),
      fnsKeys.contains n = false → mathKeys.contains n = true →
      propsRead mathFnProps n = some p →
      cargs.length < p.minArgs → vargs.length < p.minArgs →
      compileFunction ctx n cargs agg = .error (.funcArgsError n p)
        ∧ evaluateFunction ctx n vargs = .error (.funcArgsError n p))
    ∧ (∀ (ctx : FormulaContext) (n : String) (p : FnProps)
       (fnames : List String) (cprops : List (String × FnProps))
       (cargs : List Code) (vargs : List JSVal) (agg : Option (List ℕ)),
      fnsKeys.contains n = false → mathKeys.contains n = false →
      ctx.fns = some fnames → fnames.contains n = true →
      ctx.fnsProps = some cprops → propsRead cprops n = some p →
      cargs.length < p.minArgs → vargs.length < p.minArgs →
      compileFunction ctx n cargs agg = .error (.funcArgsError n p)
        ∧ evaluateFunction ctx n vargs = .error (.funcArgsError n p)) := by
  refine ⟨?_, ?_, ?_⟩
  · intro ctx n p cargs vargs agg h1 h2 h3 h4
    constructor
    · simp only [compileFunction, h1, if_true, checkArgsAndRandom, checkArgs,
        h2, if_pos h3]
    · simp only [evaluateFunction, h1, if_true, checkArgs, h2, if_pos h4]
  · intro ctx n p cargs vargs agg h1 h2 h3 h4 h5
    constructor
    · simp only [compileFunction, h1, h2, Bool.false_eq_true, if_false,
        if_true, checkArgsAndRandom, checkArgs, h3, if_pos h4]
    · simp only [evaluateFunction, h1, h2, Bool.false_eq_true, if_false,
        if_true, checkArgs, h3, if_pos h5]
  · intro ctx n p fnames cprops cargs vargs agg h1 h2 h3 h4 h5 h6 h7 h8
    constructor
    · simp only [compileFunction, h1, h2, h3, h4, h5, Bool.false_eq_true,
        if_false, if_true, checkArgsAndRandom, checkArgs, h6, if_pos h7]
    · simp only [evaluateFunction, h1, h2, h3, h4, h5, Bool.false_eq_true,
        if_false, if_true, checkArgs, h6, if_pos h8]

/-- C4 witness: the theorem at concrete inputs — built-in
`greatCircleDistance` (minArgs 4) with one argument, host-math `atan2`
(minArgs 2) with one argument, and the client function `clientRand`
(minArgs 1) with none, on both paths. -/
theorem c4_arityErrorWitness :
    (compileFunction ctxEmpty "greatCircleDistance" [.mathPI] none =
        .error (.funcArgsError "greatCircleDistance"
          ⟨4, 4, false, "DG.Formula.FuncCategoryOther"⟩)
      ∧ evaluateFunction ctxEmpty "greatCircleDistance" [.num 0] =
        .error (.funcArgsError "greatCircleDistance"
          ⟨4, 4, false, "DG.Formula.FuncCategoryOther"⟩))
    ∧ (compileFunction ctxEmpty "atan2" [.mathPI] none =
        .error (.funcArgsError "atan2"
          ⟨2, 2, false, "DG.Formula.FuncCategoryTrigonometric"⟩)
      ∧ evaluateFunction ctxEmpty "atan2" [.num 1] =
        .error (.funcArgsError "atan2"
          ⟨2, 2, false, "DG.Formula.FuncCategoryTrigonometric"⟩))
    ∧ (compileFunction ctxClient "clientRand" [] none =
        .error (.funcArgsError "clientRand" ⟨1, 2, true, "client"⟩)
      ∧ evaluateFunction ctxClient "clientRand" [] =
        .error (.funcArgsError "clientRand" ⟨1, 2, true, "client"⟩)) :=
  ⟨c4_arityErrorRaisedBelowMinArgsOnBothPaths.1 ctxEmpty "greatCircleDistance"
     ⟨4, 4, false, "DG.Formula.FuncCategoryOther"⟩ [.mathPI] [.num 0] none
     rfl rfl (by decide) (by decide),
   c4_arityErrorRaisedBelowMinArgsOnBothPaths.2.1 ctxEmpty "atan2"
     ⟨2, 2, false, "DG.Formula.FuncCategoryTrigonometric"⟩ [.mathPI] [.num 1]
     none rfl rfl rfl (by decide) (by decide),
   c4_arityErrorRaisedBelowMinArgsOnBothPaths.2.2 ctxClient "clientRand"
     ⟨1, 2, true, "client"⟩ ["clientRand", "log", "round", "random", "userFn"]
     [("clientRand", ⟨1, 2, true, "client"⟩), ("log", ⟨1, 1, false, "client"⟩),
      ("round", ⟨1, 1, false, "client"⟩), ("random", ⟨0, 0, true, "client"⟩)]
     [] [] none rfl rfl rfl rfl rfl rfl (by decide) (by decide)⟩

/-- C5: for a resolved function with a metadata entry, supplying `minArgs`
or more arguments never raises `DG.FuncArgsError` — no upper bound is
enforced, so this holds even when the count exceeds the declared
`maxArgs`: the call succeeds on both the compile path (the call code is
emitted) and the evaluate path (the implementation is applied), in every
scope. -/
theorem c5_minArgsSufficeAndMaxArgsNotEnforced :
    (∀ (ctx : FormulaContext) (n : String) (p : FnProps) (cargs : List Code)
       (vargs : List JSVal) (agg : Option (List ℕ)),
      fnsKeys.contains n = true → propsRead fnsProps n = some p →
      p.minArgs ≤ cargs.length → p.minArgs ≤ vargs.length →
      compileFunction ctx n cargs agg =
          .ok (.fnsCall n cargs,
               if p.isRandom then [randomDependency agg] else [])
        ∧ evaluateFunction ctx n vargs =
          .ok (.hostResult .builtin n vargs, []))
    ∧ (∀ (ctx : FormulaContext) (n : String) (p : FnProps) (cargs : List Code)
       (vargs : List JSVal) (agg : Option (List ℕ)),
      fnsKeys.contains n = false → mathKeys.contains n = true →
      propsRead mathFnProps n = some p →
      p.minArgs ≤ cargs.length → p.minArgs ≤ vargs.length →
      compileFunction ctx n cargs agg =
          .ok (.mathCall n cargs,
               if p.isRandom then [randomDependency agg] else [])
        ∧ evaluateFunction ctx n vargs =
          .ok (.hostResult .math n vargs, []))
    ∧ (∀ (ctx : FormulaContext) (n : String) (p : FnProps)
       (fnames : List String) (cprops : List (String × FnProps))
       (cargs : List Code) (vargs : List JSVal) (agg : Option (List ℕ)),
      fnsKeys.contains n = false → mathKeys.contains n = false →
      ctx.fns = some fnames → fnames.contains n = true →
      ctx.fnsProps = some cprops → propsRead cprops n = some p →
      p.minArgs ≤ cargs.length → p.minArgs ≤ vargs.length →
      compileFunction ctx n cargs agg =
          .ok (.clientCall n cargs,
               if p.isRandom then [randomDependency agg] else [])
        ∧ evaluateFunction ctx n vargs =
          .ok (.hostResult .client n vargs, [])) := by
  refine ⟨?_, ?_, ?_⟩
  · intro ctx n p cargs vargs agg h1 h2 h3 h4
    constructor
    · simp only [compileFunction, h1, if_true, checkArgsAndRandom, checkArgs,
        h2, if_neg (Nat.not_lt.mpr h3)]
    · simp only [evaluateFunction, h1, if_true, checkArgs, h2,
        if_neg (Nat.not_lt.mpr h4)]
  · intro ctx n p cargs vargs agg h1 h2 h3 h4 h5
    constructor
    · simp only [compileFunction, h1, h2, Bool.false_eq_true, if_false,
        if_true, checkArgsAndRandom, checkArgs, h3, if_neg (Nat.not_lt.mpr h4)]
    · simp only [evaluateFunction, h1, h2, Bool.false_eq_true, if_false,
        if_true, checkArgs, h3, if_neg (Nat.not_lt.mpr h5)]
  · intro ctx n p fnames cprops cargs vargs agg h1 h2 h3 h4 h5 h6 h7 h8
    constructor
    · simp only [compileFunction, h1, h2, h3, h4, h5, Bool.false_eq_true,
        if_false, if_true, checkArgsAndRandom, checkArgs, h6,
        if_neg (Nat.not_lt.mpr h7)]
    · simp only [evaluateFunction, h1, h2, h3, h4, h5, Bool.false_eq_true,
        if_false, if_true, checkArgs, h6, if_neg (Nat.not_lt.mpr h8)]

/-- C5 witness: the theorem at concrete inputs — `round` (declared
maxArgs 2) called with three arguments succeeds on both paths, `atan2`
(declared maxArgs 2) with three arguments succeeds, and `clientRand`
(declared maxArgs 2) with three arguments succeeds. -/
theorem c5_minArgsWitness :
    (compileFunction ctxEmpty "round" [.mathPI, .mathE, .mathPI] none =
        .ok (.fnsCall "round" [.mathPI, .mathE, .mathPI], [])
      ∧ evaluateFunction ctxEmpty "round" [.num 3, .num 1, .num 4] =
        .ok (.hostResult .builtin "round" [.num 3, .num 1, .num 4], []))
    ∧ (compileFunction ctxEmpty "atan2" [.mathPI, .mathE, .mathPI] none =
        .ok (.mathCall "atan2" [.mathPI, .mathE, .mathPI], [])
      ∧ evaluateFunction ctxEmpty "atan2" [.num 1, .num 2, .num 3] =
        .ok (.hostResult .math "atan2" [.num 1, .num 2, .num 3], []))
    ∧ (compileFunction ctxClient "clientRand" [.mathPI, .mathE, .mathPI] none =
        .ok (.clientCall "clientRand" [.mathPI, .mathE, .mathPI],
             [randomDependency none])
      ∧ evaluateFunction ctxClient "clientRand" [.num 1, .num 2, .num 3] =
        .ok (.hostResult .client "clientRand" [.num 1, .num 2, .num 3], [])) :=
  ⟨c5_minArgsSufficeAndMaxArgsNotEnforced.1 ctxEmpty "round"
     ⟨1, 2, false, "DG.Formula.FuncCategoryArithmetic"⟩
     [.mathPI, .mathE, .mathPI] [.num 3, .num 1, .num 4] none
     rfl rfl (by decide) (by decide),
   c5_minArgsSufficeAndMaxArgsNotEnforced.2.1 ctxEmpty "atan2"
     ⟨2, 2, false, "DG.Formula.FuncCategoryTrigonometric"⟩
     [.mathPI, .mathE, .mathPI] [.num 1, .num 2, .num 3] none
     rfl rfl rfl (by decide) (by decide),
   c5_minArgsSufficeAndMaxArgsNotEnforced.2.2 ctxClient "clientRand"
     ⟨1, 2, true, "client"⟩ ["clientRand", "log", "round", "random", "userFn"]
     [("clientRand", ⟨1, 2, true, "client"⟩), ("log", ⟨1, 1, false, "client"⟩),
      ("round", ⟨1, 1, false, "client"⟩), ("random", ⟨0, 0, true, "client"⟩)]
     [.mathPI, .mathE, .mathPI] [.num 1, .num 2, .num 3] none
     rfl rfl rfl rfl rfl rfl (by decide) (by decide)⟩

/-- C6: function-name resolution tries the built-in `_fns` table first,
then the host `Math` object, then the client table, first match winning,
identically on both paths.  A name in the built-in table yields a result
that is independent of the client tables (they are never consulted) and,
when successful, is the built-in call/implementation; a name only in the
`Math` scope likewise ignores the client tables and yields the `Math`
call/implementation; and for the concretely overlapping names `log`,
`round` and `random` (present in built-in, `Math`, and — in `ctxClient` —
the client table) the built-in implementation wins for every context. -/
theorem c6_resolutionOrderFirstMatchWins :
    (∀ (ctx ctx2 : FormulaContext) (n : String) (cargs : List Code)
       (vargs : List JSVal) (agg : Option (List ℕ)),
      fnsKeys.contains n = true →
      compileFunction ctx n cargs agg = compileFunction ctx2 n cargs agg
        ∧ evaluateFunction ctx n vargs = evaluateFunction ctx2 n vargs
        ∧ (∀ (code : Code) (deps : List Dependency),
            compileFunction ctx n cargs agg = .ok (code, deps) →
            code = .fnsCall n cargs)
        ∧ (∀ (v : JSVal) (deps : List Dependency),
            evaluateFunction ctx n vargs = .ok (v, deps) →
            v = .hostResult .builtin n vargs))
    ∧ (∀ (ctx ctx2 : FormulaContext) (n : String) (cargs : List Code)
       (vargs : List JSVal) (agg : Option (List ℕ)),
      fnsKeys.contains n = false → mathKeys.contains n = true →
      compileFunction ctx n cargs agg = compileFunction ctx2 n cargs agg
        ∧ evaluateFunction ctx n vargs = evaluateFunction ctx2 n vargs
        ∧ (∀ (code : Code) (deps : List Dependency),
            compileFunction ctx n cargs agg = .ok (code, deps) →
            code = .mathCall n cargs)
        ∧ (∀ (v : JSVal) (deps : List Dependency),
            evaluateFunction ctx n vargs = .ok (v, deps) →
            v = .hostResult .math n vargs))
    ∧ (∀ (ctx : FormulaContext) (a : Code) (v : JSVal) (cargs : List Code)
       (vargs : List JSVal) (agg : Option (List ℕ)),
      compileFunction ctx "log" [a] agg = .ok (.fnsCall "log" [a], [])
        ∧ compileFunction ctx "round" [a] agg = .ok (.fnsCall "round" [a], [])
        ∧ compileFunction ctx "random" cargs agg =
            .ok (.fnsCall "random" cargs, [randomDependency agg])
        ∧ evaluateFunction ctx "log" [v] =
            .ok (.hostResult .builtin "log" [v], [])
        ∧ evaluateFunction ctx "round" [v] =
            .ok (.hostResult .builtin "round" [v], [])
        ∧ evaluateFunction ctx "random" vargs =
            .ok (.hostResult .builtin "random" vargs, [])) := by
  refine ⟨?_, ?_, ?_⟩
  · intro ctx ctx2 n cargs vargs agg h1
    refine ⟨by simp only [compileFunction, h1, if_true],
            by simp only [evaluateFunction, h1, if_true], ?_, ?_⟩
    · intro code deps
      simp only [compileFunction, h1, if_true]
      cases h : checkArgsAndRandom n cargs (some fnsProps) agg with
      | error err => simp
      | ok d => simp +contextual
    · intro v deps
      simp only [evaluateFunction, h1, if_true]
      cases h : checkArgs n vargs (some fnsProps) with
      | error err => simp
      | ok u => simp +contextual
  · intro ctx ctx2 n cargs vargs agg h1 h2
    refine ⟨by simp only [compileFunction, h1, h2, Bool.false_eq_true,
              if_false, if_true],
            by simp only [evaluateFunction, h1, h2, Bool.false_eq_true,
              if_false, if_true], ?_, ?_⟩
    · intro code deps
      simp only [compileFunction, h1, h2, Bool.false_eq_true, if_false,
        if_true]
      cases h : checkArgsAndRandom n cargs (some mathFnProps) agg with
      | error err => simp
      | ok d => simp +contextual
    · intro v deps
      simp only [evaluateFunction, h1, h2, Bool.false_eq_true, if_false,
        if_true]
      cases h : checkArgs n vargs (some mathFnProps) with
      | error err => simp
      | ok u => simp +contextual
  · intro ctx a v cargs vargs agg
    exact ⟨rfl, rfl, rfl, rfl, rfl, rfl⟩

/-- C6 witness: the theorem at concrete inputs — `ctxClient` supplies client
entries for `log`, `round` and `random`, yet the built-in implementations
win on both paths; and for `pow` (host-math scope) the result is the same
whether the client tables are present (`ctxClient`) or absent
(`ctxEmpty`). -/
theorem c6_resolutionOrderWitness :
    compileFunction ctxClient "log" [.mathPI] none =
      .ok (.fnsCall "log" [.mathPI], [])
    ∧ evaluateFunction ctxClient "round" [.num 3] =
      .ok (.hostResult .builtin "round" [.num 3], [])
    ∧ compileFunction ctxClient "random" [] (some [1]) =
      .ok (.fnsCall "random" [], [randomDependency (some [1])])
    ∧ compileFunction ctxClient "pow" [.mathPI, .mathE] none =
      compileFunction ctxEmpty "pow" [.mathPI, .mathE] none :=
  ⟨(c6_resolutionOrderFirstMatchWins.2.2 ctxClient .mathPI (.num 3) []
      [] none).1,
   (c6_resolutionOrderFirstMatchWins.2.2 ctxClient .mathPI (.num 3) []
      [] none).2.2.2.2.1,
   (c6_resolutionOrderFirstMatchWins.2.2 ctxClient .mathPI (.num 3) []
      [] (some [1])).2.2.1,
   (c6_resolutionOrderFirstMatchWins.2.1 ctxClient ctxEmpty "pow"
      [.mathPI, .mathE] [] none rfl rfl).1⟩

theorem runEnds_of_matching_names : ∀ (st ds : List FnCtx) (logs : ℕ),
    ds.map FnCtx.name = st.map FnCtx.name →
    runEnds st ds logs = some ([], logs) := by
  intro st
  induction st with
  | nil =>
      intro ds logs h
      cases ds with
      | nil => rfl
      | cons d ds2 => simp at h
  | cons s st2 ih =>
      intro ds logs h
      cases ds with
      | nil => simp at h
      | cons d ds2 =>
          simp only [List.map_cons, List.cons.injEq] at h
          have hend : endFunctionContext (s :: st2) (some d) = .popped st2 := by
            simp [endFunctionContext, topName, h.1]
          simp only [runEnds, hend]
          exact ih ds2 logs h.2

theorem beginAll_eq_reverse_append : ∀ (cs st : List FnCtx),
    beginAll st cs = cs.reverse ++ st := by
  intro cs
  induction cs with
  | nil => intro st; rfl
  | cons c cs2 ih =>
      intro st
      simp only [beginAll, List.foldl_cons] at *
      rw [ih (beginFunctionContext st c)]
      simp [beginFunctionContext]

/-- C7: beginning N function contexts and ending them in exact reverse
order (each end called with a context whose name equals the matching
begin's name) leaves the stack empty, with no `RangeError` raised and
zero contract violations logged; and from every stack state, an
`endFunctionContext` call whose context's name does not match the top
entry's name (the empty string for an empty stack) leaves the stack
unchanged and only logs — it never pops and never raises. -/
theorem c7_balancedStackAndMismatchRecovery :
    (∀ (cs ds : List FnCtx),
      ds.map FnCtx.name = (cs.map FnCtx.name).reverse →
      runEnds (beginAll [] cs) ds 0 = some ([], 0))
    ∧ (∀ (stack : List FnCtx) (fc : FnCtx),
      fc.name ≠ topName stack →
      endFunctionContext stack (some fc) = .logged stack) := by
  constructor
  · intro cs ds h
    apply runEnds_of_matching_names
    rw [beginAll_eq_reverse_append, List.append_nil, List.map_reverse]
    exact h
  · intro stack fc h
    simp [endFunctionContext, h]

/-- C7 witness: the theorem at concrete inputs — three nested contexts
begun and ended in reverse order leave the stack empty with zero logged
violations, and a mismatched end on a one-entry stack is logged with the
stack unchanged. -/
theorem c7_balancedStackWitness :
    runEnds (beginAll [] [⟨"mean"⟩, ⟨"count"⟩, ⟨"round"⟩])
        [⟨"round"⟩, ⟨"count"⟩, ⟨"mean"⟩] 0 = some ([], 0)
    ∧ endFunctionContext [⟨"mean"⟩] (some ⟨"count"⟩) = .logged [⟨"mean"⟩] :=
  ⟨c7_balancedStackAndMismatchRecovery.1 [⟨"mean"⟩, ⟨"count"⟩, ⟨"round"⟩]
     [⟨"round"⟩, ⟨"count"⟩, ⟨"mean"⟩] (by decide),
   c7_balancedStackAndMismatchRecovery.2 [⟨"mean"⟩] ⟨"count"⟩ (by decide)⟩

/-- C8: for each constant name `pi`, `π` and `e`, compiling with
`compileVariable` and invoking the artifact `createContextFunction` builds
yields exactly the value direct evaluation with `evaluateVariable` yields —
`Math.PI` for `pi`/`π` and `Math.E` for `e` — for every context, global
scope and evaluation context, with no dependency registered. -/
theorem c8_constantsCompileThenRunEqualsDirectEvaluation :
    ∀ (ctx : FormulaContext) (g : String → Option JSVal) (e : EvalArg),
    (createContextFunction (compileVariable ctx "pi").1 g ctx e =
        evaluateVariable ctx "pi" e
      ∧ evaluateVariable ctx "pi" e = .ok .mathPI
      ∧ (compileVariable ctx "pi").2 = [])
    ∧ (createContextFunction (compileVariable ctx "π").1 g ctx e =
        evaluateVariable ctx "π" e
      ∧ evaluateVariable ctx "π" e = .ok .mathPI
      ∧ (compileVariable ctx "π").2 = [])
    ∧ (createContextFunction (compileVariable ctx "e").1 g ctx e =
        evaluateVariable ctx "e" e
      ∧ evaluateVariable ctx "e" e = .ok .mathE
      ∧ (compileVariable ctx "e").2 = []) := by
  intro ctx g e
  exact ⟨⟨rfl, rfl, rfl⟩, ⟨rfl, rfl, rfl⟩, ⟨rfl, rfl, rfl⟩⟩

/-- C9: when a function name resolves in a scope whose metadata table has
no entry for it, the arity check is silently skipped and no argument count
— zero included — ever raises `DG.FuncArgsError` on either path: so for
the built-in `isFinite` (implemented in `_fns` but absent from
`_fnsProps`), and for every client function absent from the client
`fnsProps` table (or whose context has no such table at all). -/
theorem c9_missingPropsEntrySkipsArityCheck :
    (∀ (ctx : FormulaContext) (cargs : List Code) (vargs : List JSVal)
       (agg : Option (List ℕ)),
      compileFunction ctx "isFinite" cargs agg =
          .ok (.fnsCall "isFinite" cargs, [])
        ∧ evaluateFunction ctx "isFinite" vargs =
          .ok (.hostResult .builtin "isFinite" vargs, []))
    ∧ (∀ (ctx : FormulaContext) (n : String) (fnames : List String)
       (cargs : List Code) (vargs : List JSVal) (agg : Option (List ℕ)),
      fnsKeys.contains n = false → mathKeys.contains n = false →
      ctx.fns = some fnames → fnames.contains n = true →
      ctx.fnsProps.bind (fun cprops => propsRead cprops n) = none →
      compileFunction ctx n cargs agg = .ok (.clientCall n cargs, [])
        ∧ evaluateFunction ctx n vargs =
          .ok (.hostResult .client n vargs, [])) := by
  constructor
  · intro ctx cargs vargs agg
    exact ⟨rfl, rfl⟩
  · intro ctx n fnames cargs vargs agg h1 h2 h3 h4 h5
    cases hp : ctx.fnsProps with
    | none =>
        constructor
        · simp only [compileFunction, h1, h2, h3, h4, hp, Bool.false_eq_true,
            if_false, if_true, checkArgsAndRandom, checkArgs]
        · simp only [evaluateFunction, h1, h2, h3, h4, hp, Bool.false_eq_true,
            if_false, if_true, checkArgs]
    | some cprops =>
        have h6 : propsRead cprops n = none := by
          simpa [hp] using h5
        constructor
        · simp only [compileFunction, h1, h2, h3, h4, hp, Bool.false_eq_true,
            if_false, if_true, checkArgsAndRandom, checkArgs, h6]
        · simp only [evaluateFunction, h1, h2, h3, h4, hp, Bool.false_eq_true,
            if_false, if_true, checkArgs, h6]

/-- C9 witness: the theorem at concrete inputs — `isFinite` with zero
arguments succeeds on both paths, and the client function `userFn` of
`ctxClient` (absent from the client `fnsProps`) succeeds with zero
arguments on both paths. -/
theorem c9_missingPropsWitness :
    (compileFunction ctxEmpty "isFinite" [] none =
        .ok (.fnsCall "isFinite" [], [])
      ∧ evaluateFunction ctxEmpty "isFinite" [] =
        .ok (.hostResult .builtin "isFinite" [], []))
    ∧ (compileFunction ctxClient "userFn" [] none =
        .ok (.clientCall "userFn" [], [])
      ∧ evaluateFunction ctxClient "userFn" [] =
        .ok (.hostResult .client "userFn" [], [])) :=
  ⟨c9_missingPropsEntrySkipsArityCheck.1 ctxEmpty [] [] none,
   c9_missingPropsEntrySkipsArityCheck.2 ctxClient "userFn"
     ["clientRand", "log", "round", "random", "userFn"] [] [] none
     rfl rfl rfl rfl rfl⟩

/-- C10: `endFunctionContext` called on the empty stack with a context
whose name is the empty string takes the matching-name branch (the top
name defaults to the empty string) and decrements the array length to -1,
raising `RangeError` instead of the documented log-and-leave-unchanged
recovery; and on every non-empty stack the matching-name branch removes
exactly the top entry and leaves the rest unchanged. -/
theorem c10_emptyStackMatchingEndRaisesRangeError :
    endFunctionContext [] (some ⟨""⟩) = .rangeError
    ∧ (∀ (top : FnCtx) (rest : List FnCtx) (fc : FnCtx),
      fc.name = top.name →
      endFunctionContext (top :: rest) (some fc) = .popped rest) := by
  constructor
  · rfl
  · intro top rest fc h
    simp [endFunctionContext, topName, h]

/-- C10 witness: the theorem at concrete inputs — a matching end on a
two-entry stack pops exactly the top entry, and the empty-stack
empty-name end raises `RangeError`. -/
theorem c10_emptyStackRangeErrorWitness :
    endFunctionContext [⟨"mean"⟩, ⟨"count"⟩] (some ⟨"mean"⟩) =
      .popped [⟨"count"⟩]
    ∧ endFunctionContext [] (some ⟨""⟩) = .rangeError :=
  ⟨c10_emptyStackMatchingEndRaisesRangeError.2 ⟨"mean"⟩ [⟨"count"⟩] ⟨"mean"⟩
     rfl,
   c10_emptyStackMatchingEndRaisesRangeError.1⟩
